import Mathlib

/-!
# Verification of the code-runner dashboard supervisor (src/app.py)

Shallow embedding of the process-supervision core of `src/app.py`:
the in-memory instance table `RUNNING_PROCESSES`, the endpoint handlers
`upload_script`, `start_script`, `stop_script`, `list_scripts`,
`get_status`, `get_logs`, `restart_all`, and the path arithmetic of
`os.path.join`.  OS side effects (process spawning, signal delivery,
PID probing, the current clock) are abstracted into an oracle record
`Os`; file-system contents are explicit association lists.  Effects the
Python code performs on the outside world that the claims talk about
(opening log-file handles, spawning attempts) are tracked in the state.
-/

namespace CodeRunner

/-- Tests that `p` is a prefix of `s` (over the character lists, so that concrete
instances evaluate inside the kernel). -/
def strStartsWith (s p : String) : Bool := p.data.isPrefixOf s.data

/-- Tests that `p` is a suffix of `s`. -/
def strEndsWith (s p : String) : Bool := p.data.isSuffixOf s.data

/-- Embeds `os.path.join(a, b)` for the cases exercised by the program:
if `b` is absolute it wins; otherwise it is appended with a single
separator. -/
def os_path_join (a b : String) : String :=
  if strStartsWith b "/" then b
  else if a = "" ∨ strEndsWith a "/" then a ++ b
  else a ++ "/" ++ b

/-- Constant `SCRIPTS_DIR` from src/app.py line 31. -/
def SCRIPTS_DIR : String := "/home/ubuntu/uploaded_scripts"

/-- Constant `LOGS_DIR` from src/app.py line 32. -/
def LOGS_DIR : String := "/home/ubuntu/script_logs"

/-- Resolve `.`/`..`/empty segments of an absolute path the way the
kernel resolves them (`..` at the root stays at the root).  `acc` is the
stack of resolved segments, most recent first. -/
def resolveSegs : List String → List String → List String
  | acc, [] => acc.reverse
  | acc, s :: rest =>
    if s = "" ∨ s = "." then resolveSegs acc rest
    else if s = ".." then resolveSegs acc.tail rest
    else resolveSegs (s :: acc) rest

/-- Split a character list at `'/'` (the segments of a path); `cur`
accumulates the current segment in reverse. -/
def splitSlash : List Char → List Char → List String
  | cur, [] => [String.mk cur.reverse]
  | cur, c :: cs =>
    if c = '/' then String.mk cur.reverse :: splitSlash [] cs
    else splitSlash (c :: cur) cs

/-- The `'/'`-separated segments of a path. -/
def pathSegs (p : String) : List String := splitSlash [] p.data

/-- Joins segments with `'/'`. -/
def joinSlash : List String → String
  | [] => ""
  | [s] => s
  | s :: rest => s ++ "/" ++ joinSlash rest

/-- Canonical form of an absolute path. -/
def resolvePath (p : String) : String :=
  "/" ++ joinSlash (resolveSegs [] (pathSegs p))

/-- Whether path `p` (after resolution) lies strictly inside directory `dir`. -/
def isUnderDir (dir p : String) : Bool :=
  strStartsWith (resolvePath p) (resolvePath dir ++ "/")

/-- The artifact path computed by `upload_script` (src/app.py line 71):
the raw join of `SCRIPTS_DIR` with the client-supplied filename. -/
def upload_script_path (filename : String) : String :=
  os_path_join SCRIPTS_DIR filename

/-- The script path computed by `start_script` (src/app.py line 89). -/
def start_script_path (script_name : String) : String :=
  os_path_join SCRIPTS_DIR script_name

/-! ## Log tailing (`get_logs`, src/app.py lines 198–225) -/

/-- Python list slicing `l[i:]` with an arbitrary integer start index:
a negative index counts from the end (clamped at 0), a non-negative
index drops from the front (clamped at the length). -/
def pySliceFrom (i : Int) (l : List String) : List String :=
  if i < 0 then l.drop (l.length + i).toNat else l.drop i.toNat

/-- The slice `all_lines[-lines:]` from src/app.py line 216. -/
def tail_lines (lines : Int) (all_lines : List String) : List String :=
  pySliceFrom (-lines) all_lines

/-! ## Supervisor state -/

/-- A value of the `RUNNING_PROCESSES` table (src/app.py lines 111–115):
pid, start timestamp and log file path. -/
structure Instance where
  pid : Nat
  start_time : Nat
  log_file : String
deriving Repr, DecidableEq

/-- The mutable state the handlers act on.  `scripts` is the set of
names whose artifact exists on disk (`os.path.exists` of the joined
path); `table` is `RUNNING_PROCESSES`; `openHandles` records log-file
handles the program has opened and not closed (the `open(log_file,'a')`
of line 106 has no matching `close` anywhere in `start_script`);
`spawnCalls` records each attempted `subprocess.Popen` (line 104). -/
structure SupState where
  scripts : List String
  table : List (String × Instance)
  openHandles : List String
  spawnCalls : List String
deriving Repr, DecidableEq

/-- OS oracle: outcome of `subprocess.Popen` on a script path (`none` =
raises), of `os.killpg(os.getpgid pid, 9)` (`false` = raises), of
`psutil.Process(pid)` (`false` = raises), and the current clock. -/
structure Os where
  spawn : String → Option Nat
  killOk : Nat → Bool
  probeOk : Nat → Bool
  now : Nat

/-- Python dict lookup `t[n]` / `n in t` on the association-list model
of `RUNNING_PROCESSES`. -/
def lookupTable : List (String × Instance) → String → Option Instance
  | [], _ => none
  | e :: t, n => if e.1 = n then some e.2 else lookupTable t n

/-- Python dict deletion `del t[n]` (removes the entry for `n`; on the
association-list model, the first one). -/
def deleteKey : List (String × Instance) → String → List (String × Instance)
  | [], _ => []
  | e :: t, n => if e.1 = n then t else e :: deleteKey t n

/-- The keys of the table. -/
def keysOf (t : List (String × Instance)) : List String := t.map Prod.fst

/-- The per-script canonical log path `os.path.join(LOGS_DIR,
f"{script_name}.log")` (src/app.py lines 102 and 204). -/
def log_file_for (script_name : String) : String :=
  os_path_join LOGS_DIR (script_name ++ ".log")

/-! ## Endpoint handlers -/

/-- Outcome of `POST /start/{script_name}`. -/
inductive StartResult where
  /-- HTTP 404, artifact absent (line 92). -/
  | notFound
  /-- Early return with the existing pid (lines 94–99). -/
  | alreadyRunning (pid : Nat)
  /-- Success (lines 117–122). -/
  | started (pid : Nat)
  /-- HTTP 500, `subprocess.Popen` raised (lines 123–124). -/
  | spawnFailure
deriving Repr, DecidableEq

/-- Handler `start_script` (src/app.py lines 86–124).  Checks artifact
existence, then the table; otherwise opens the append-mode log handle
(recorded in `openHandles`, never closed by the code), attempts the
spawn (recorded in `spawnCalls`) and on success records the instance. -/
def start_script (os : Os) (s : SupState) (script_name : String) :
    StartResult × SupState :=
  if script_name ∈ s.scripts then
    match lookupTable s.table script_name with
    | some inst => (.alreadyRunning inst.pid, s)
    | none =>
      let log_file := log_file_for script_name
      let s1 : SupState :=
        { s with openHandles := log_file :: s.openHandles,
                 spawnCalls := start_script_path script_name :: s.spawnCalls }
      match os.spawn (start_script_path script_name) with
      | none => (.spawnFailure, s1)
      | some pid =>
        (.started pid,
         { s1 with table := (script_name, ⟨pid, os.now, log_file⟩) :: s1.table })
  else (.notFound, s)

/-- Outcome of `POST /stop/{script_name}`. -/
inductive StopResult where
  /-- HTTP 404, name untracked (lines 129–130). -/
  | notRunning
  /-- Success: signal delivered, entry deleted (lines 137–144). -/
  | stopped
  /-- HTTP 500, `os.getpgid`/`os.killpg` raised (lines 145–146). -/
  | stopFailure
deriving Repr, DecidableEq

/-- Handler `stop_script` (src/app.py lines 126–146).  On successful signal
delivery the entry is deleted; if the signal raises, the `del` on line
138 is never reached and the table is untouched. -/
def stop_script (os : Os) (s : SupState) (script_name : String) :
    StopResult × SupState :=
  match lookupTable s.table script_name with
  | none => (.notRunning, s)
  | some inst =>
    if os.killOk inst.pid then
      (.stopped, { s with table := deleteKey s.table script_name })
    else (.stopFailure, s)

/-- Report of `GET /status/{script_name}`. -/
inductive StatusReport where
  /-- Name untracked (lines 171–176). -/
  | stopped
  /-- Probe succeeded (lines 180–189). -/
  | running (pid : Nat) (start_time : Nat)
  /-- `psutil.Process` raised (lines 190–196). -/
  | error (msg : String)
deriving Repr, DecidableEq

/-- Handler `get_status` (src/app.py lines 168–196).  Never mutates the state;
the second component is returned to make that mutability claim
statable. -/
def get_status (os : Os) (s : SupState) (script_name : String) :
    StatusReport × SupState :=
  match lookupTable s.table script_name with
  | none => (.stopped, s)
  | some inst =>
    if os.probeOk inst.pid then (.running inst.pid inst.start_time, s)
    else (.error "لا يمكن الوصول للعملية", s)

/-- Result of `GET /logs/{script_name}`. -/
inductive LogsResult where
  /-- Log file missing: the "no logs yet" reply (lines 206–211). -/
  | noLogs
  /-- The tail text and the total line count (lines 218–223). -/
  | logs (text : String) (total_lines : Nat)
deriving Repr, DecidableEq

/-- Lines of the file at path `p`, if it exists.  `readlines`-style:
each element keeps its trailing newline. -/
def lookupFile : List (String × List String) → String → Option (List String)
  | [], _ => none
  | f :: fs, p => if f.1 = p then some f.2 else lookupFile fs p

/-- The log path `get_logs` reads: the tracked instance's recorded path
if the script is running (src/app.py line 202), else the canonical
per-name path (line 204). -/
def log_path_of (table : List (String × Instance)) (script_name : String) :
    String :=
  match lookupTable table script_name with
  | some inst => inst.log_file
  | none => log_file_for script_name

/-- Handler `get_logs` (src/app.py lines 198–225).  Resolves the log path,
returns the "no logs" reply when the file is missing, else the last
`lines` lines (`all_lines[-lines:]`, line 216) joined, together with
`len(all_lines)`. -/
def get_logs (logFs : List (String × List String))
    (table : List (String × Instance)) (script_name : String)
    (lines : Int) : LogsResult :=
  match lookupFile logFs (log_path_of table script_name) with
  | none => .noLogs
  | some all_lines =>
    .logs (String.join (tail_lines lines all_lines)) all_lines.length

/-- Contents of the scripts directory as a path → bytes map (bytes as
`Nat`s). -/
def lookupBytes : List (String × List Nat) → String → Option (List Nat)
  | [], _ => none
  | f :: fs, p => if f.1 = p then some f.2 else lookupBytes fs p

/-- Handler `upload_script` (src/app.py lines 67–84): computes the artifact path
as the raw join of `SCRIPTS_DIR` with the client-supplied filename (line
71, no sanitization) and writes the submitted bytes there (lines
72–74).  The new file shadows any earlier one at the same path. -/
def upload_script (fs : List (String × List Nat)) (filename : String)
    (content : List Nat) : List (String × List Nat) :=
  (upload_script_path filename, content) :: fs

/-- One entry of the scripts directory as `os.listdir` +
`os.path.getsize` + `os.path.getctime` present it. -/
structure DirEntry where
  name : String
  size : Nat
  created : Nat
deriving Repr, DecidableEq

/-- One element of the `scripts` array built by `list_scripts`
(src/app.py lines 155–160). -/
structure ScriptInfo where
  name : String
  size : Nat
  created : Nat
  is_running : Bool
deriving Repr, DecidableEq

/-- Handler `list_scripts` (src/app.py lines 148–166): loops over the directory
in listing order, keeping only names that end in `".py"` (line 153), and
reports name, size, creation time and `filename in RUNNING_PROCESSES`. -/
def list_scripts : List DirEntry → List (String × Instance) → List ScriptInfo
  | [], _ => []
  | e :: rest, table =>
    if strEndsWith e.name ".py" then
      ⟨e.name, e.size, e.created, (lookupTable table e.name).isSome⟩ ::
        list_scripts rest table
    else list_scripts rest table

/-- One iteration of the `restart_all` loop (src/app.py lines 251–258):
`stop_script` then `start_script`, any `HTTPException` from either call
swallowed by the bare `except: pass`; returns the new state and whether
the name is appended to `restarted` (only when both calls return
normally). -/
def restart_one (os : Os) (s : SupState) (script_name : String) :
    SupState × Bool :=
  match stop_script os s script_name with
  | (.stopped, s1) =>
    match start_script os s1 script_name with
    | (.notFound, s2) => (s2, false)
    | (.spawnFailure, s2) => (s2, false)
    | (.alreadyRunning _, s2) => (s2, true)
    | (.started _, s2) => (s2, true)
  | (.notRunning, s1) => (s1, false)
  | (.stopFailure, s1) => (s1, false)

/-- The `restart_all` loop over a snapshot of the keys. -/
def restart_go (os : Os) : SupState → List String → SupState × List String
  | s, [] => (s, [])
  | s, n :: rest =>
    let r := restart_one os s n
    let rec' := restart_go os r.1 rest
    (rec'.1, if r.2 then n :: rec'.2 else rec'.2)

/-- Handler `restart_all` (src/app.py lines 247–264): iterates over
`list(RUNNING_PROCESSES.keys())`, a snapshot taken before any
mutation. -/
def restart_all (os : Os) (s : SupState) : SupState × List String :=
  restart_go os s (keysOf s.table)

/-! ## Helper lemmas about the table model -/

theorem lookupTable_eq_none {t : List (String × Instance)} {n : String} :
    lookupTable t n = none ↔ n ∉ keysOf t := by
  induction t with
  | nil => simp [lookupTable, keysOf]
  | cons e t ih =>
    by_cases he : e.1 = n
    · subst he
      simp [lookupTable, keysOf]
    · have hne : ¬ n = e.1 := fun h => he h.symm
      simp [lookupTable, keysOf, he, hne, ih]

theorem lookupTable_isSome {t : List (String × Instance)} {n : String} :
    (lookupTable t n).isSome = true ↔ n ∈ keysOf t := by
  rw [Option.isSome_iff_ne_none, ne_eq, lookupTable_eq_none, not_not]

theorem lookupTable_some_mem {t : List (String × Instance)} {n : String}
    {i : Instance} (h : lookupTable t n = some i) : (n, i) ∈ t := by
  induction t with
  | nil => simp [lookupTable] at h
  | cons e t ih =>
    simp only [lookupTable] at h
    split at h
    · rename_i he
      injection h with h2
      subst h2
      have he2 : (n, e.2) = e := by rw [← he]
      rw [he2]
      exact List.mem_cons_self e t
    · exact List.mem_cons_of_mem _ (ih h)

theorem deleteKey_sublist (t : List (String × Instance)) (n : String) :
    List.Sublist (deleteKey t n) t := by
  induction t with
  | nil => simp [deleteKey]
  | cons e t ih =>
    simp only [deleteKey]
    split
    · exact List.sublist_cons_self e t
    · exact List.Sublist.cons₂ e ih

theorem keysOf_deleteKey_nodup {t : List (String × Instance)} {n : String}
    (h : (keysOf t).Nodup) : (keysOf (deleteKey t n)).Nodup :=
  List.Nodup.sublist (List.Sublist.map Prod.fst (deleteKey_sublist t n)) h

theorem lookupTable_deleteKey_self {t : List (String × Instance)} {n : String}
    (h : (keysOf t).Nodup) : lookupTable (deleteKey t n) n = none := by
  induction t with
  | nil => simp [deleteKey, lookupTable]
  | cons e t ih =>
    simp only [keysOf, List.map_cons, List.nodup_cons] at h
    simp only [deleteKey]
    split
    · rename_i he
      rw [lookupTable_eq_none]
      rw [he] at h
      exact h.1
    · rename_i he
      simp [lookupTable, he, ih h.2]

theorem mem_deleteKey {t : List (String × Instance)} {n : String}
    {e : String × Instance} (h : e ∈ deleteKey t n) : e ∈ t :=
  (deleteKey_sublist t n).subset h

/-- The table keys tracked by the supervisor all have an existing
artifact.  This holds in the initial (empty) state, is preserved by
every operation (see the preservation lemmas below), and justifies
reasoning about reachable states. -/
def tableOwned (s : SupState) : Prop := ∀ e ∈ s.table, e.1 ∈ s.scripts

/-! ## Effect lemmas for the handlers -/

theorem start_script_scripts (os : Os) (s : SupState) (n : String) :
    (start_script os s n).2.scripts = s.scripts := by
  unfold start_script
  split <;> [skip; rfl]
  split
  · rfl
  · split <;> rfl

theorem start_script_nodup (os : Os) (s : SupState) (n : String)
    (h : (keysOf s.table).Nodup) :
    (keysOf (start_script os s n).2.table).Nodup := by
  unfold start_script
  split <;> [skip; exact h]
  split
  · exact h
  · rename_i hnone
    split
    · exact h
    · simp only [keysOf, List.map_cons, List.nodup_cons]
      exact ⟨lookupTable_eq_none.mp hnone, h⟩

theorem start_script_tableOwned (os : Os) (s : SupState) (n : String)
    (h : tableOwned s) : tableOwned (start_script os s n).2 := by
  unfold start_script
  split <;> [skip; exact h]
  rename_i hmem
  split
  · exact h
  · split
    · exact h
    · intro e he
      rcases List.mem_cons.mp he with he | he
      · rw [he]
        exact hmem
      · exact h e he

theorem stop_script_scripts (os : Os) (s : SupState) (n : String) :
    (stop_script os s n).2.scripts = s.scripts := by
  unfold stop_script
  split
  · rfl
  · split <;> rfl

theorem stop_script_nodup (os : Os) (s : SupState) (n : String)
    (h : (keysOf s.table).Nodup) :
    (keysOf (stop_script os s n).2.table).Nodup := by
  unfold stop_script
  split
  · exact h
  · split
    · exact keysOf_deleteKey_nodup h
    · exact h

theorem stop_script_tableOwned (os : Os) (s : SupState) (n : String)
    (h : tableOwned s) : tableOwned (stop_script os s n).2 := by
  unfold stop_script
  split
  · exact h
  · split
    · exact fun e he => h e (mem_deleteKey he)
    · exact h

theorem get_status_snd (os : Os) (s : SupState) (n : String) :
    (get_status os s n).2 = s := by
  unfold get_status
  split
  · rfl
  · split <;> rfl

theorem restart_one_nodup (os : Os) (s : SupState) (n : String)
    (h : (keysOf s.table).Nodup) :
    (keysOf (restart_one os s n).1.table).Nodup := by
  have hstop := stop_script_nodup os s n h
  unfold restart_one
  split
  · rename_i s1 heq
    rw [heq] at hstop
    have hstart := start_script_nodup os s1 n hstop
    split <;> rename_i heq2 <;> rw [heq2] at hstart <;> exact hstart
  · rename_i s1 heq
    rw [heq] at hstop
    exact hstop
  · rename_i s1 heq
    rw [heq] at hstop
    exact hstop

theorem restart_one_tableOwned (os : Os) (s : SupState) (n : String)
    (h : tableOwned s) : tableOwned (restart_one os s n).1 := by
  have hstop := stop_script_tableOwned os s n h
  unfold restart_one
  split
  · rename_i s1 heq
    rw [heq] at hstop
    have hstart := start_script_tableOwned os s1 n hstop
    split <;> rename_i heq2 <;> rw [heq2] at hstart <;> exact hstart
  · rename_i s1 heq
    rw [heq] at hstop
    exact hstop
  · rename_i s1 heq
    rw [heq] at hstop
    exact hstop

theorem restart_go_nodup (os : Os) (names : List String) (s : SupState)
    (h : (keysOf s.table).Nodup) :
    (keysOf (restart_go os s names).1.table).Nodup := by
  induction names generalizing s with
  | nil => exact h
  | cons n rest ih =>
    simp only [restart_go]
    exact ih _ (restart_one_nodup os s n h)

theorem restart_go_tableOwned (os : Os) (names : List String) (s : SupState)
    (h : tableOwned s) : tableOwned (restart_go os s names).1 := by
  induction names generalizing s with
  | nil => exact h
  | cons n rest ih =>
    simp only [restart_go]
    exact ih _ (restart_one_tableOwned os s n h)

/-! ## Lemmas about the tail slice -/

theorem tail_lines_zero (l : List String) : tail_lines 0 l = l := by
  simp [tail_lines, pySliceFrom]

theorem tail_lines_length_le {k : Int} (hk : 1 ≤ k) (l : List String) :
    ((tail_lines k l).length : Int) ≤ k := by
  unfold tail_lines pySliceFrom
  rw [if_pos (by omega : -k < 0), List.length_drop]
  omega

theorem tail_lines_whole {k : Int} {l : List String} (hk : 0 ≤ k)
    (hlen : (l.length : Int) ≤ k) : tail_lines k l = l := by
  unfold tail_lines pySliceFrom
  split
  · rw [(by omega : ((l.length : Int) + -k).toNat = 0)]
    exact List.drop_zero l
  · rw [(by omega : (-k).toNat = 0)]
    exact List.drop_zero l

/-! ## Claim theorems -/

/-- C1 (amended): for every script with an existing log file and every
requested line count `k ≥ 0`, `get_logs` returns the joined tail slice
together with a `total_lines` equal to the file's actual line count; for
`k ≥ 1` the slice has at most `k` lines, and whenever `k` is at least
the file's line count the slice is the whole file; for `k = 0` the
Python slice `all_lines[-0:]` is the whole file (not the empty text),
still with the correct total. -/
theorem get_logs_tail_correct (logFs : List (String × List String))
    (table : List (String × Instance)) (name : String) (k : Int)
    (all_lines : List String)
    (hfile : lookupFile logFs (log_path_of table name) = some all_lines)
    (hk : 0 ≤ k) :
    get_logs logFs table name k
      = .logs (String.join (tail_lines k all_lines)) all_lines.length
    ∧ (1 ≤ k → ((tail_lines k all_lines).length : Int) ≤ k)
    ∧ ((all_lines.length : Int) ≤ k → tail_lines k all_lines = all_lines)
    ∧ (k = 0 → tail_lines k all_lines = all_lines) := by
  refine ⟨?_, ?_, ?_, ?_⟩
  · unfold get_logs
    rw [hfile]
  · intro h1
    exact tail_lines_length_le h1 all_lines
  · intro hlen
    exact tail_lines_whole hk hlen
  · intro h0
    rw [h0]
    exact tail_lines_zero all_lines

/-- Witness for `get_logs_tail_correct` at a concrete three-line log
tailed with `k = 2`. -/
theorem get_logs_tail_correct_witness :
    get_logs [(log_file_for "x", ["a\n", "b\n", "c\n"])] [] "x" 2
      = .logs (String.join (tail_lines 2 ["a\n", "b\n", "c\n"])) 3
    ∧ ((tail_lines (2 : Int) ["a\n", "b\n", "c\n"]).length : Int) ≤ 2 :=
  have h := get_logs_tail_correct [(log_file_for "x", ["a\n", "b\n", "c\n"])]
    [] "x" 2 ["a\n", "b\n", "c\n"] (by decide) (by decide)
  ⟨h.1, h.2.1 (by decide)⟩

/-- C1 (counterexample to the claim as stated): on a one-line log file,
`GET /logs/x?lines=0` returns the whole file (Python's `all_lines[-0:]`
is `all_lines[0:]`), not the empty text the claim promises; and for the
integer `k = -1` on a two-line file the slice keeps one line, which is
not "at most `k` lines". -/
theorem get_logs_zero_counterexample :
    get_logs [(log_file_for "x", ["hello\n"])] [] "x" 0 = .logs "hello\n" 1
    ∧ ("hello\n" : String) ≠ ""
    ∧ ¬ (((tail_lines (-1) ["a\n", "b\n"]).length : Int) ≤ -1) := by
  refine ⟨by decide, by decide, by decide⟩

/-- C7: starting a script whose artifact does not exist fails with
`NotFound` (HTTP 404) and returns the state — in particular the instance
table — unchanged. -/
theorem start_script_notFound (os : Os) (s : SupState) (n : String)
    (h : n ∉ s.scripts) :
    start_script os s n = (.notFound, s) := by
  unfold start_script
  rw [if_neg h]

/-- Witness for `start_script_notFound`: starting `missing.py` on the
empty state. -/
theorem start_script_notFound_witness :
    start_script ⟨fun _ => some 1, fun _ => true, fun _ => true, 0⟩
        ⟨[], [], [], []⟩ "missing.py"
      = (.notFound, ⟨[], [], [], []⟩) :=
  start_script_notFound _ _ "missing.py" (by decide)

/-- C8: stopping a script that is not in the instance table fails with
`NotRunning` (HTTP 404) and returns the state unchanged. -/
theorem stop_script_notRunning (os : Os) (s : SupState) (n : String)
    (h : lookupTable s.table n = none) :
    stop_script os s n = (.notRunning, s) := by
  unfold stop_script
  rw [h]

/-- Witness for `stop_script_notRunning`. -/
theorem stop_script_notRunning_witness :
    stop_script ⟨fun _ => some 1, fun _ => true, fun _ => true, 0⟩
        ⟨["a.py"], [], [], []⟩ "a.py"
      = (.notRunning, ⟨["a.py"], [], [], []⟩) :=
  stop_script_notRunning _ _ "a.py" (by decide)

/-- C9: probing the status of a tracked script whose PID lookup fails
reports status `error` with the descriptive message, and the state —
in particular the stale table entry — is left fully in place. -/
theorem get_status_error_keeps_entry (os : Os) (s : SupState) (n : String)
    (inst : Instance) (h : lookupTable s.table n = some inst)
    (hp : os.probeOk inst.pid = false) :
    get_status os s n = (.error "لا يمكن الوصول للعملية", s)
    ∧ (get_status os s n).2 = s
    ∧ lookupTable (get_status os s n).2.table n = some inst := by
  have hbranch : get_status os s n
      = (.error "لا يمكن الوصول للعملية", s) := by
    unfold get_status
    rw [h]
    dsimp only
    rw [if_neg (by simp [hp])]
  rw [hbranch]
  exact ⟨rfl, rfl, h⟩

/-- Witness for `get_status_error_keeps_entry`: a tracked pid the probe
rejects. -/
theorem get_status_error_keeps_entry_witness :
    get_status ⟨fun _ => some 1, fun _ => true, fun _ => false, 0⟩
        ⟨["a.py"], [("a.py", ⟨7, 0, "l"⟩)], [], []⟩ "a.py"
      = (.error "لا يمكن الوصول للعملية",
         ⟨["a.py"], [("a.py", ⟨7, 0, "l"⟩)], [], []⟩) :=
  (get_status_error_keeps_entry
    ⟨fun _ => some 1, fun _ => true, fun _ => false, 0⟩
    ⟨["a.py"], [("a.py", ⟨7, 0, "l"⟩)], [], []⟩ "a.py" ⟨7, 0, "l"⟩
    (by decide) rfl).1

/-- C3: for a tracked script, `stop_script` removes the entry exactly
when the kill signal is delivered without error: on successful delivery
the entry is deleted immediately (only the table changes, nothing else
in the state — no wait or reap is modelled because the code performs
none), and when signal delivery raises, the handler answers
`StopFailure` (HTTP 500) and the whole state is unchanged. -/
theorem stop_script_removes_iff_kill_ok (os : Os) (s : SupState)
    (n : String) (inst : Instance)
    (hnodup : (keysOf s.table).Nodup)
    (h : lookupTable s.table n = some inst) :
    (os.killOk inst.pid = true →
      stop_script os s n
        = (.stopped, { s with table := deleteKey s.table n })
      ∧ lookupTable (stop_script os s n).2.table n = none)
    ∧ (os.killOk inst.pid = false →
      stop_script os s n = (.stopFailure, s)) := by
  have hbranch : stop_script os s n
      = if os.killOk inst.pid
        then (.stopped, { s with table := deleteKey s.table n })
        else (.stopFailure, s) := by
    unfold stop_script
    rw [h]
  constructor
  · intro hk
    rw [hbranch, if_pos hk]
    exact ⟨rfl, lookupTable_deleteKey_self hnodup⟩
  · intro hk
    rw [hbranch, if_neg (by simp [hk])]

/-- Witness for `stop_script_removes_iff_kill_ok`: both the delivered
and the failing branch at concrete states. -/
theorem stop_script_removes_iff_kill_ok_witness :
    (stop_script ⟨fun _ => some 1, fun _ => true, fun _ => true, 0⟩
        ⟨["a.py"], [("a.py", ⟨7, 0, "l"⟩)], [], []⟩ "a.py"
      = (.stopped, ⟨["a.py"], [], [], []⟩))
    ∧ (stop_script ⟨fun _ => some 1, fun _ => false, fun _ => true, 0⟩
        ⟨["a.py"], [("a.py", ⟨7, 0, "l"⟩)], [], []⟩ "a.py"
      = (.stopFailure, ⟨["a.py"], [("a.py", ⟨7, 0, "l"⟩)], [], []⟩)) :=
  ⟨((stop_script_removes_iff_kill_ok
      ⟨fun _ => some 1, fun _ => true, fun _ => true, 0⟩
      ⟨["a.py"], [("a.py", ⟨7, 0, "l"⟩)], [], []⟩ "a.py" ⟨7, 0, "l"⟩
      (by decide) (by decide)).1 rfl).1,
   (stop_script_removes_iff_kill_ok
      ⟨fun _ => some 1, fun _ => false, fun _ => true, 0⟩
      ⟨["a.py"], [("a.py", ⟨7, 0, "l"⟩)], [], []⟩ "a.py" ⟨7, 0, "l"⟩
      (by decide) (by decide)).2 rfl⟩

/-- C2: starting an already-tracked script answers with the existing
descriptor's pid and returns the state — table entry, open handles,
recorded spawn attempts — unchanged, so no new process is spawned; and
after any successful `start_script`, an immediately repeated
`start_script` with no intervening stop answers `alreadyRunning` with
the same pid and again changes nothing.  The `tableOwned` hypothesis
(every tracked name has an existing artifact) holds in every state
reachable from the initial empty table: it is preserved by every
operation (`start_script_tableOwned`, `stop_script_tableOwned`,
`restart_go_tableOwned`, `get_status_snd`). -/
theorem start_script_idempotent (os : Os) (s : SupState) (n : String)
    (inst : Instance) (hown : tableOwned s)
    (h : lookupTable s.table n = some inst) :
    start_script os s n = (.alreadyRunning inst.pid, s)
    ∧ ∀ (os' : Os) (s₀ s₁ : SupState) (p : Nat),
        start_script os' s₀ n = (.started p, s₁) →
        start_script os' s₁ n = (.alreadyRunning p, s₁) := by
  constructor
  · have hmem : n ∈ s.scripts := hown (n, inst) (lookupTable_some_mem h)
    unfold start_script
    rw [if_pos hmem, h]
  · intro os' s₀ s₁ p heq
    unfold start_script at heq
    split at heq
    · rename_i hmem
      split at heq
      · simp at heq
      · rename_i hnone
        split at heq
        · simp at heq
        · rename_i pid hspawn
          injection heq with h1 h2
          injection h1 with hpid
          subst hpid
          subst h2
          unfold start_script
          dsimp only
          rw [if_pos hmem]
          simp [lookupTable]
    · simp at heq

/-- Witness for `start_script_idempotent`: a tracked `a.py`. -/
theorem start_script_idempotent_witness :
    start_script ⟨fun _ => some 9, fun _ => true, fun _ => true, 3⟩
        ⟨["a.py"], [("a.py", ⟨7, 0, "l"⟩)], [], []⟩ "a.py"
      = (.alreadyRunning 7, ⟨["a.py"], [("a.py", ⟨7, 0, "l"⟩)], [], []⟩) :=
  (start_script_idempotent ⟨fun _ => some 9, fun _ => true, fun _ => true, 3⟩
    ⟨["a.py"], [("a.py", ⟨7, 0, "l"⟩)], [], []⟩ "a.py" ⟨7, 0, "l"⟩
    (by unfold tableOwned; decide) rfl).1

/-- C6: the at-most-one-instance-per-name invariant — the table's keys
are pairwise distinct — is preserved by every operation: `start_script`
(it inserts only after the lookup on line 94 of src/app.py came back
empty), `stop_script`, `get_status` and `restart_all`. -/
theorem table_keys_nodup_invariant (os : Os) (s : SupState) (n : String)
    (h : (keysOf s.table).Nodup) :
    (keysOf (start_script os s n).2.table).Nodup
    ∧ (keysOf (stop_script os s n).2.table).Nodup
    ∧ (keysOf (get_status os s n).2.table).Nodup
    ∧ (keysOf (restart_all os s).1.table).Nodup := by
  refine ⟨start_script_nodup os s n h, stop_script_nodup os s n h, ?_, ?_⟩
  · rw [get_status_snd]
    exact h
  · exact restart_go_nodup os (keysOf s.table) s h

/-- Witness for `table_keys_nodup_invariant` on a one-entry table. -/
theorem table_keys_nodup_invariant_witness :
    (keysOf (start_script ⟨fun _ => some 9, fun _ => true, fun _ => true, 0⟩
        ⟨["a.py"], [("b.py", ⟨7, 0, "l"⟩)], [], []⟩ "a.py").2.table).Nodup
    ∧ (keysOf (stop_script ⟨fun _ => some 9, fun _ => true, fun _ => true, 0⟩
        ⟨["a.py"], [("b.py", ⟨7, 0, "l"⟩)], [], []⟩ "a.py").2.table).Nodup
    ∧ (keysOf (get_status ⟨fun _ => some 9, fun _ => true, fun _ => true, 0⟩
        ⟨["a.py"], [("b.py", ⟨7, 0, "l"⟩)], [], []⟩ "a.py").2.table).Nodup
    ∧ (keysOf (restart_all ⟨fun _ => some 9, fun _ => true, fun _ => true, 0⟩
        ⟨["a.py"], [("b.py", ⟨7, 0, "l"⟩)], [], []⟩).1.table).Nodup :=
  table_keys_nodup_invariant ⟨fun _ => some 9, fun _ => true, fun _ => true, 0⟩
    ⟨["a.py"], [("b.py", ⟨7, 0, "l"⟩)], [], []⟩ "a.py" (by decide)

/-- Rewrites `list_scripts` as a filter-then-map over the directory listing. -/
theorem list_scripts_eq (dir : List DirEntry)
    (table : List (String × Instance)) :
    list_scripts dir table
      = (dir.filter (fun e => strEndsWith e.name ".py")).map
          (fun e => ⟨e.name, e.size, e.created,
                     (lookupTable table e.name).isSome⟩) := by
  induction dir with
  | nil => rfl
  | cons e rest ih =>
    by_cases hpy : strEndsWith e.name ".py" = true
    · simp [list_scripts, hpy, ih]
    · simp [list_scripts, hpy, ih]

/-- C5 (amended): `list_scripts` enumerates, in directory order, exactly
the stored artifacts whose name ends in `".py"`, and for each of those
reports its name, size, creation time, and a running flag that is true
exactly when the name is a key of the supervisor's table. -/
theorem list_scripts_reports (dir : List DirEntry)
    (table : List (String × Instance)) :
    list_scripts dir table
      = (dir.filter (fun e => strEndsWith e.name ".py")).map
          (fun e => ⟨e.name, e.size, e.created,
                     (lookupTable table e.name).isSome⟩)
    ∧ (∀ e ∈ dir, strEndsWith e.name ".py" = true →
        (⟨e.name, e.size, e.created, (lookupTable table e.name).isSome⟩ :
          ScriptInfo) ∈ list_scripts dir table)
    ∧ (∀ i ∈ list_scripts dir table,
        i.is_running = true ↔ i.name ∈ keysOf table) := by
  refine ⟨list_scripts_eq dir table, ?_, ?_⟩
  · intro e he hpy
    rw [list_scripts_eq]
    exact List.mem_map_of_mem _ (List.mem_filter.mpr ⟨he, hpy⟩)
  · intro i hi
    rw [list_scripts_eq] at hi
    obtain ⟨e, he, rfl⟩ := List.mem_map.mp hi
    simpa using lookupTable_isSome (t := table) (n := e.name)

/-- Witness for `list_scripts_reports`: one stored, running `a.py`. -/
theorem list_scripts_reports_witness :
    (⟨"a.py", 10, 5, true⟩ : ScriptInfo)
      ∈ list_scripts [⟨"a.py", 10, 5⟩] [("a.py", ⟨7, 0, "l"⟩)] :=
  (list_scripts_reports [⟨"a.py", 10, 5⟩] [("a.py", ⟨7, 0, "l"⟩)]).2.1
    ⟨"a.py", 10, 5⟩ (by decide) (by decide)

/-- C5 (counterexample to the claim as stated): a stored artifact whose
name does not end in `".py"` — here `notes.txt` — is not enumerated at
all, because of the `filename.endswith(".py")` guard on line 153 of
src/app.py; so `List()` does not report every stored artifact. -/
theorem list_scripts_misses_non_py :
    list_scripts [⟨"notes.txt", 5, 7⟩] [] = [] := by decide

/-- C4 (code bug): when process creation fails for an existing artifact,
`start_script` answers `SpawnFailure` (HTTP 500) — but the log-file
handle opened on line 106 of src/app.py (`stdout=open(log_file, 'a')`)
is never closed: no close/release exists anywhere in `start_script`, so
on the failure path the handle is still open in the resulting state. -/
theorem start_script_spawn_failure_leaks_handle :
    start_script ⟨fun _ => none, fun _ => true, fun _ => true, 0⟩
        ⟨["a.py"], [], [], []⟩ "a.py"
      = (.spawnFailure,
         ⟨["a.py"], [], [log_file_for "a.py"], [start_script_path "a.py"]⟩)
    ∧ log_file_for "a.py"
        ∈ (start_script ⟨fun _ => none, fun _ => true, fun _ => true, 0⟩
            ⟨["a.py"], [], [], []⟩ "a.py").2.openHandles := by
  exact ⟨by decide, by decide⟩

/-- C10: the upload path is the raw, unsanitized join of `SCRIPTS_DIR`
with the client-supplied filename; for the filename `"../evil.py"` the
submitted bytes are written at
`/home/ubuntu/uploaded_scripts/../evil.py`, which resolves to
`/home/ubuntu/evil.py`, outside the scripts directory; `start_script`
computes exactly the same path for every name, so the escaped artifact
can then be started under the same name. -/
theorem upload_path_traversal :
    upload_script [] "../evil.py" [104, 105]
      = [("/home/ubuntu/uploaded_scripts/../evil.py", [104, 105])]
    ∧ resolvePath (upload_script_path "../evil.py") = "/home/ubuntu/evil.py"
    ∧ isUnderDir SCRIPTS_DIR (upload_script_path "../evil.py") = false
    ∧ (∀ name : String, start_script_path name = upload_script_path name)
    ∧ start_script ⟨fun _ => some 7, fun _ => true, fun _ => true, 0⟩
        ⟨["../evil.py"], [], [], []⟩ "../evil.py"
      = (.started 7,
         ⟨["../evil.py"],
          [("../evil.py", ⟨7, 0, log_file_for "../evil.py"⟩)],
          [log_file_for "../evil.py"], [start_script_path "../evil.py"]⟩) := by
  refine ⟨by decide, by decide, by decide, fun name => rfl, by decide⟩

end CodeRunner
